import Mathlib

/-
Verification of the SwiftShader Vulkan debug server (vk::dbg) and its DAP
transport layer against its natural-language specification.

The definitions below are shallow embeddings of the C++ sources:
  * src/Vulkan/Debug/Server.cpp (Thread FSM, DAP request handlers, Files),
  * the vk::dbg headers (VariableContainer, Frame, Scope, File, Thread),
  * the dap transport (Connection::Impl framing parser and processResponse,
    JSONSerializer/JSONDeserializer field handling, TypeOf<optional<T>>).
Pointer identity of shared_ptr<Frame> is modelled by frame ids (every frame is
created with a fresh id from a monotone counter, so two live frames never share
an id).  Fallible operations (out-of-bounds vector access, null-pointer
dereference) return Option, with none modelling the undefined behaviour.
-/

namespace VkDbg

/-- Thread::State (Server.hpp): the per-thread FSM state. -/
inductive TState where
  | Running
  | Stepping
  | Paused
deriving DecidableEq, Repr

/-- vk::dbg::Kind (Server.hpp / Type.hpp): the tag of a Value's type. -/
inductive Kind where
  | bool
  | u8
  | s8
  | u16
  | s16
  | f32
  | u32
  | s32
  | f64
  | u64
  | s64
  | ptr
  | variableContainer
deriving DecidableEq, Repr

mutual

/-- vk::dbg::Value: the values constructible through the in-source API, i.e. a
Constant of each TypeOf-specialised scalar type, or a VariableContainer.
Floating point formatting is outside the model: a float constant carries the
decimal rendering its std-to-string would produce.  (Kind::Ptr exists in the
enum but no in-source construct creates a Ptr-typed value.) -/
inductive Value where
  | vBool (b : Bool)
  | vU8 (n : Nat)
  | vS8 (n : Int)
  | vU16 (n : Nat)
  | vS16 (n : Int)
  | vF32 (rendered : String)
  | vU32 (n : Nat)
  | vS32 (n : Int)
  | vF64 (rendered : String)
  | vU64 (n : Nat)
  | vS64 (n : Int)
  | vContainer (c : VariableContainer)

/-- vk::dbg::VariableContainer: id plus the ordered vector of variables.
put() keeps insertion order (replace-in-place for an existing name), so the
vector order is insertion order. -/
inductive VariableContainer where
  | mk (id : Nat) (vars : List Variable)

/-- vk::dbg::Variable: a (name, value) pair. -/
inductive Variable where
  | mk (name : String) (value : Value)

end

def Variable.name : Variable → String
  | .mk n _ => n

def Variable.value : Variable → Value
  | .mk _ v => v

def VariableContainer.id : VariableContainer → Nat
  | .mk i _ => i

def VariableContainer.vars : VariableContainer → List Variable
  | .mk _ vs => vs

/-- the Kind carried by a Value's Type (Value::type()->kind). -/
def Value.kind : Value → Kind
  | .vBool _ => .bool
  | .vU8 _ => .u8
  | .vS8 _ => .s8
  | .vU16 _ => .u16
  | .vS16 _ => .s16
  | .vF32 _ => .f32
  | .vU32 _ => .u32
  | .vS32 _ => .s32
  | .vF64 _ => .f64
  | .vU64 _ => .u64
  | .vS64 _ => .s64
  | .vContainer _ => .variableContainer

/-- Server.cpp Impl::type: the display name of a type, by kind.  For Kind::Ptr
the source appends a star to the element type's name; no value constructible
through the in-source API carries a Ptr type, so the element recursion is
degenerate here. -/
def kindName : Kind → String
  | .bool => "bool"
  | .u8 => "uint8_t"
  | .s8 => "int8_t"
  | .u16 => "uint16_t"
  | .s16 => "int16_t"
  | .f32 => "float"
  | .u32 => "uint32_t"
  | .s32 => "int32_t"
  | .f64 => "double"
  | .u64 => "uint64_t"
  | .s64 => "int64_t"
  | .ptr => "*"
  | .variableContainer => "struct"

mutual

/-- Server.cpp Impl::value: stringification of a Value.  Scalars print with
their natural decimal / bool spelling (std-to-string); a VariableContainer
prints as a bracketed comma-separated list built by foreach. -/
def valueString : Value → String
  | .vBool b => if b then "true" else "false"
  | .vU8 n => toString n
  | .vS8 n => toString n
  | .vU16 n => toString n
  | .vS16 n => toString n
  | .vF32 rendered => rendered
  | .vU32 n => toString n
  | .vS32 n => toString n
  | .vF64 rendered => rendered
  | .vU64 n => toString n
  | .vS64 n => toString n
  | .vContainer (.mk _ vars) => "[" ++ containerFold vars "" ++ "]"

/-- the foreach accumulation inside Impl::value's VariableContainer case:
out starts empty and each variable appends a comma separator (when out is
nonempty already), its name, a colon and its stringified value. -/
def containerFold : List Variable → String → String
  | [], out => out
  | .mk nm val :: rest, out =>
      containerFold rest
        ((if out.length > 0 then out ++ ", " else out) ++ nm ++ ": " ++ valueString val)

end

/-- a vk::dbg::File as the DAP server sees it (VirtualFile / PhysicalFile in
Server.cpp): id, name, directory, flavour, source text and the line breakpoint
set.  The unordered set of breakpoint lines is modelled as a duplicate-free
list (emplace inserts only when absent). -/
structure DFile where
  id : Nat
  name : String
  dir : String
  isVirtual : Bool
  source : String
  breakpoints : List Int
deriving DecidableEq, Repr

/-- VirtualFile::hasBreakpoint: breakpoints.count(line) > 0. -/
def DFile.hasBreakpoint (f : DFile) (line : Int) : Bool :=
  f.breakpoints.contains line

/-- VirtualFile::addBreakpoint: breakpoints.emplace(line) — a set insert. -/
def DFile.addBreakpoint (f : DFile) (line : Int) : DFile :=
  if f.breakpoints.contains line then f
  else { f with breakpoints := f.breakpoints ++ [line] }

/-- VirtualFile::clearBreakpoints. -/
def DFile.clearBreakpoints (f : DFile) : DFile :=
  { f with breakpoints := [] }

/-- File::path(): dir + "/" + name when dir is nonempty, else name. -/
def DFile.path (f : DFile) : String :=
  if f.dir.length > 0 then f.dir ++ "/" ++ f.name else f.name

/-- vk::dbg::Location: a line and a (possibly null) file pointer. -/
structure Location where
  line : Int
  file : Option DFile

/-- vk::dbg::Scope: id, associated file, and one VariableContainer.  The field
holding the container is called variables in the source (a reserved word
here). -/
structure Scope where
  id : Nat
  file : Option DFile
  vars : VariableContainer

/-- vk::dbg::Frame: id, function name, current location and the three scopes.
Frame identity (shared_ptr pointer equality) is the id: every frame is created
by createFrame with a fresh id. -/
structure Frame where
  id : Nat
  function : String
  location : Location
  arguments : Scope
  locals : Scope
  registers : Scope

/-- the events a Thread broadcasts (StoppedEvent / ThreadEvent payloads sent by
onStep, onLineBreakpoint, onFunctionBreakpoint in Server.cpp; the newer tree
forwards them through EventListener::onThreadStepped etc.). -/
inductive DbgEvent where
  | threadStarted (threadId : Nat)
  | threadStepped (threadId : Nat)
  | lineBreakpointHit (threadId : Nat)
  | functionBreakpointHit (threadId : Nat)
deriving DecidableEq, Repr

/-- the state of a vk::dbg::Thread guarded by its stateMutex: the frame stack
(the back of the vector, i.e. the last list element, is the top of stack), the
FSM state, and pauseAtFrame stored as the frame id (shared_ptr identity). -/
structure ThreadState where
  id : Nat
  frames : List Frame
  state : TState
  pauseAtFrame : Option Nat

/-- Thread::update (Server.cpp).  frames.back()->location = location; a Running
thread pauses at a breakpoint on the reported line; a Stepping thread pauses
when pauseAtFrame is null or is the current top frame.  none models the
undefined frames.back() on an empty stack and the asserted-against null
location.file.  The condition-variable wait and the pauseAtFrame reset that
follows it are folded into the step: the returned state is the state
observable while the thread is blocked. -/
def ThreadState.update (t : ThreadState) (loc : Location) :
    Option (ThreadState × List DbgEvent) :=
  match t.frames.getLast?, loc.file with
  | none, _ => none
  | _, none => none
  | some top, some f =>
      let frames := t.frames.dropLast ++ [{ top with location := loc }]
      let hit := t.state = TState.Running ∧ f.hasBreakpoint loc.line = true
      let st1 := if hit then TState.Paused else t.state
      let evs1 : List DbgEvent := if hit then [DbgEvent.lineBreakpointHit t.id] else []
      match st1 with
      | TState.Paused =>
          some ({ t with frames := frames, state := TState.Paused }, evs1)
      | TState.Stepping =>
          if t.pauseAtFrame = none ∨ t.pauseAtFrame = some top.id then
            some ({ t with frames := frames, state := TState.Paused, pauseAtFrame := none },
                  evs1 ++ [DbgEvent.threadStepped t.id])
          else
            some ({ t with frames := frames }, evs1)
      | TState.Running =>
          some ({ t with frames := frames }, evs1)

/-- Thread::enter: push the (freshly created) frame, and pause on a registered
function breakpoint.  The frame argument arrives with its function name set,
as in the source where frame->function is assigned before the push. -/
def ThreadState.enter (t : ThreadState) (frame : Frame) (isFunctionBreakpoint : Bool) :
    ThreadState × List DbgEvent :=
  if isFunctionBreakpoint then
    ({ t with frames := t.frames ++ [frame], state := TState.Paused },
     [DbgEvent.functionBreakpointHit t.id])
  else
    ({ t with frames := t.frames ++ [frame] }, [])

/-- Thread::exit: frames.pop_back(); none models the undefined pop on an empty
vector. -/
def ThreadState.exit (t : ThreadState) : Option ThreadState :=
  match t.frames with
  | [] => none
  | _ :: _ => some { t with frames := t.frames.dropLast }

/-- Thread::registers: frames.back()->registers->variables. -/
def ThreadState.registers (t : ThreadState) : Option VariableContainer :=
  (t.frames.getLast?).map fun fr => fr.registers.vars

/-- Thread::locals: frames.back()->locals->variables. -/
def ThreadState.locals (t : ThreadState) : Option VariableContainer :=
  (t.frames.getLast?).map fun fr => fr.locals.vars

/-- Thread::arguments: frames.back()->arguments->variables. -/
def ThreadState.arguments (t : ThreadState) : Option VariableContainer :=
  (t.frames.getLast?).map fun fr => fr.arguments.vars

/-- Thread::resume: state = Running, notify. -/
def ThreadState.resume (t : ThreadState) : ThreadState :=
  { t with state := TState.Running }

/-- Thread::pause: state = Paused. -/
def ThreadState.pause (t : ThreadState) : ThreadState :=
  { t with state := TState.Paused }

/-- Thread::stepIn: state = Stepping, pauseAtFrame.reset(). -/
def ThreadState.stepIn (t : ThreadState) : ThreadState :=
  { t with state := TState.Stepping, pauseAtFrame := none }

/-- Thread::stepOver: state = Stepping, pauseAtFrame = frames.back(); none
models the undefined back() on an empty stack. -/
def ThreadState.stepOver (t : ThreadState) : Option ThreadState :=
  (t.frames.getLast?).map fun top =>
    { t with state := TState.Stepping, pauseAtFrame := some top.id }

/-- Thread::stepOut: state = Stepping,
pauseAtFrame = (frames.size() > 1) ? frames[frames.size() - 1] : nullptr
— note the index in the source is size-1 (the top of the stack), written here
exactly as the source computes it. -/
def ThreadState.stepOut (t : ThreadState) : ThreadState :=
  { t with state := TState.Stepping,
           pauseAtFrame :=
             if t.frames.length > 1 then
               (t.frames.get? (t.frames.length - 1)).map Frame.id
             else none }

/-- dap::ContinueResponse, as filled by the handler. -/
structure ContinueResponse where
  allThreadsContinued : Bool
deriving DecidableEq, Repr

/-- the ContinueRequest handler (Server.cpp).  lock.get(threadId) looks the
thread up in the context registry; a hit resumes that one thread and answers
allThreadsContinued=false.  In the no-match branch the source loops over
lock.threads() but the loop body calls resume() through `thread` — the null
shared_ptr produced by the failed lookup — so with a nonempty thread table the
handler dereferences null (modelled as none); with an empty table the loop
body never runs and the handler answers allThreadsContinued=true. -/
def continueRequestHandler (threads : List (Nat × ThreadState)) (threadId : Nat) :
    Option (ContinueResponse × List (Nat × ThreadState)) :=
  match threads.find? (fun e => e.fst == threadId) with
  | some _ =>
      some ({ allThreadsContinued := false },
            threads.map fun e => if e.fst == threadId then (e.fst, e.snd.resume) else e)
  | none =>
      match threads with
      | [] => some ({ allThreadsContinued := true }, [])
      | _ :: _ => none

/-- dap::Variable, with the fields the VariablesRequest handler fills. -/
structure DapVariable where
  name : String
  evaluateName : String
  type : String
  value : String
  variablesReference : Option Nat
deriving DecidableEq, Repr

/-- one entry of the VariablesResponse, as built in the handler's foreach
callback: name, evaluateName, type name, value string, and — for a
VariableContainer-typed value — its id as variablesReference. -/
def mkDapVariable (v : Variable) : DapVariable :=
  { name := v.name,
    evaluateName := v.name,
    type := kindName v.value.kind,
    value := valueString v.value,
    variablesReference :=
      match v.value with
      | .vContainer c => some c.id
      | _ => none }

/-- the VariablesRequest handler's foreach loop (Server.cpp): the callback
appends an output entry only when the request carries no count, or when
req.count.value() < int(response.variables.size()) — the comparison exactly as
written in the source, count against the number of entries emitted so far. -/
def variablesLoop (vs : List Variable) (count : Option Int) (acc : List DapVariable) :
    List DapVariable :=
  match vs with
  | [] => acc
  | v :: rest =>
      variablesLoop rest count
        (if count.isNone || decide (count.getD 0 < (acc.length : Int))
         then acc ++ [mkDapVariable v] else acc)

/-- dap::VariablesRequest: variablesReference, optional start (read with
req.start.value(0)) and optional count. -/
structure VariablesRequest where
  variablesReference : Nat
  start : Option Nat
  count : Option Int

/-- the VariablesRequest handler (Server.cpp): resolve the container by id
(error when the reference is unknown), then foreach from the start index. -/
def variablesRequestHandler (containers : List (Nat × VariableContainer))
    (req : VariablesRequest) : Except String (List DapVariable) :=
  match containers.find? (fun e => e.fst == req.variablesReference) with
  | none =>
      Except.error ("VariablesReference " ++ toString req.variablesReference ++ " not found")
  | some e =>
      Except.ok (variablesLoop (e.snd.vars.drop (req.start.getD 0)) req.count [])

/-- VariableContainer::find: linear scan of the variables vector, first name
match wins; the callback receives the matched variable. -/
def VariableContainer.findVar (c : VariableContainer) (name : String) : Option Variable :=
  c.vars.find? (fun v => v.name == name)

/-- dap::EvaluateResponse, with the fields the handler fills. -/
structure EvaluateResponse where
  result : String
  type : String
deriving DecidableEq, Repr

/-- the EvaluateRequest handler (Server.cpp): with a frameId, resolve the
frame (unknown frame is its own error), then look the expression up in locals,
then arguments, then registers (the short-circuit || chain over
VariableContainer::find); a hit answers with the variable's value string and
type name; a miss — or an absent frameId — fails with
"Could not evaluate expression". -/
def evaluateRequestHandler (frames : List (Nat × Frame)) (frameId : Option Nat)
    (expression : String) : Except String EvaluateResponse :=
  match frameId with
  | some fid =>
      match frames.find? (fun e => e.fst == fid) with
      | none => Except.error ("Unknown frame " ++ toString fid)
      | some e =>
          let fr := e.snd
          match fr.locals.vars.findVar expression with
          | some var =>
              Except.ok { result := valueString var.value, type := kindName var.value.kind }
          | none =>
              match fr.arguments.vars.findVar expression with
              | some var =>
                  Except.ok { result := valueString var.value, type := kindName var.value.kind }
              | none =>
                  match fr.registers.vars.findVar expression with
                  | some var =>
                      Except.ok { result := valueString var.value, type := kindName var.value.kind }
                  | none => Except.error "Could not evaluate expression"
  | none => Except.error "Could not evaluate expression"

/-- dap::Source, with the fields the breakpoint path reads. -/
structure DapSource where
  name : Option String
  path : Option String
  sourceReference : Option Nat
deriving DecidableEq, Repr

/-- the Files registry of Server.cpp: the id-keyed file map, the source-name
keyed pending breakpoints, and the nextFileId counter. -/
structure FilesState where
  nextId : Nat
  byId : List (Nat × DFile)
  pendingBreakpoints : List (String × List Int)

/-- Files::get. -/
def FilesState.get (fs : FilesState) (id : Nat) : Option DFile :=
  (fs.byId.find? (fun e => e.fst == id)).map Prod.snd

/-- Files::setPendingBreakpoints: pendingBreakpoints.emplace(name, bps) — an
unordered_map emplace, which inserts only when the key is absent and leaves an
existing entry untouched. -/
def FilesState.setPendingBreakpoints (fs : FilesState) (name : String) (lines : List Int) :
    FilesState :=
  if (fs.pendingBreakpoints.find? (fun e => e.fst == name)).isSome then fs
  else { fs with pendingBreakpoints := fs.pendingBreakpoints ++ [(name, lines)] }

/-- Files::add: register the file by id, then install any pending breakpoints
whose key equals the file's name onto it.  Ids come fresh from nextFileId, so
the emplace into byId is a plain insert. -/
def FilesState.add (fs : FilesState) (file : DFile) : FilesState × DFile :=
  let file2 :=
    match fs.pendingBreakpoints.find? (fun e => e.fst == file.name) with
    | some e => e.snd.foldl DFile.addBreakpoint file
    | none => file
  ({ fs with byId := fs.byId ++ [(file.id, file2)] }, file2)

/-- the client-name sanitization in createVirtualFile: for the "visualstudio"
client every dot in the name becomes an underscore. -/
def sanitizeName (clientIsVisualStudio : Bool) (name : String) : String :=
  if clientIsVisualStudio then
    String.mk (name.toList.map fun c => if c = '.' then '_' else c)
  else name

/-- Server::Impl::createVirtualFile: a fresh id from nextFileId++, the
(possibly sanitized) name, and Files::add. -/
def FilesState.createVirtualFile (fs : FilesState) (clientIsVisualStudio : Bool)
    (name source : String) : FilesState × DFile :=
  let id := fs.nextId
  let fs2 := { fs with nextId := fs.nextId + 1 }
  fs2.add { id := id, name := sanitizeName clientIsVisualStudio name, dir := "",
            isVirtual := true, source := source, breakpoints := [] }

/-- the name leg of Server::Impl::file(const dap::Source&): foreach over the
registered files assigns every name match to out, so the last match in
iteration order wins (the map iteration order is modelled as list order). -/
def resolveSourceByName (fs : FilesState) (src : DapSource) : Option DFile :=
  match src.name with
  | some n => ((fs.byId.filter (fun e => e.snd.name == n)).getLast?).map Prod.snd
  | none => none

/-- the path leg of Server::Impl::file(const dap::Source&): when a path is
present the handler returns its (possibly null) match without falling through
to the name leg. -/
def resolveSourceByPath (fs : FilesState) (src : DapSource) : Option DFile :=
  match src.path with
  | some p => ((fs.byId.filter (fun e => e.snd.path == p)).getLast?).map Prod.snd
  | none => resolveSourceByName fs src

/-- Server::Impl::file(const dap::Source&): sourceReference lookup first (only
a hit returns early), then path, then name. -/
def resolveSource (fs : FilesState) (src : DapSource) : Option DFile :=
  match src.sourceReference with
  | some id =>
      match fs.get id with
      | some f => some f
      | none => resolveSourceByPath fs src
  | none => resolveSourceByPath fs src

/-- dap::Breakpoint, with the fields the SetBreakpoints handler fills. -/
structure DapBreakpoint where
  verified : Bool
  source : Option DapSource
deriving DecidableEq, Repr

/-- dap::SetBreakpointsRequest: the source and the optional requested
breakpoints, kept as their line numbers. -/
structure SetBreakpointsRequest where
  source : DapSource
  breakpoints : Option (List Int)

/-- the SetBreakpointsRequest handler (Server.cpp): resolve the source; on a
hit clear the file's breakpoints and add each requested line (verified); on a
miss with a source name store the lines as pending (unverified); answer one
Breakpoint per requested line. -/
def setBreakpointsHandler (fs : FilesState) (req : SetBreakpointsRequest) :
    FilesState × List DapBreakpoint :=
  match req.breakpoints with
  | none => (fs, [])
  | some lines =>
      match resolveSource fs req.source with
      | some file =>
          let file2 := lines.foldl DFile.addBreakpoint file.clearBreakpoints
          let fs2 := { fs with
                       byId := fs.byId.map fun e =>
                         if e.fst == file.id then (e.fst, file2) else e }
          (fs2, lines.map fun _ => { verified := true, source := some req.source })
      | none =>
          match req.source.name with
          | some n =>
              (fs.setPendingBreakpoints n lines,
               lines.map fun _ => { verified := false, source := some req.source })
          | none =>
              (fs, lines.map fun _ => { verified := false, source := some req.source })


end VkDbg

namespace Dap

/-- a JSON value (the nlohmann::json tree the dap transport reads and writes).
Objects keep their fields as an association list with unique keys; a
non-integer number carries its rendering opaquely (floating point formatting
is outside the model). -/
inductive JVal where
  | jnull
  | jbool (b : Bool)
  | jint (n : Int)
  | jnum (rendered : String)
  | jstr (s : String)
  | jarr (elems : List JVal)
  | jobj (fields : List (String × JVal))

/-- json.find(name) on an object's field list. -/
def jfind (fields : List (String × JVal)) (name : String) : Option JVal :=
  (fields.find? (fun e => e.fst == name)).map Prod.snd

/-- json.find(name) on a value: only objects have fields. -/
def jobjFind (j : JVal) (name : String) : Option JVal :=
  match j with
  | .jobj fields => jfind fields name
  | _ => none

/-- json[name] = v: assign the existing key or append a fresh one. -/
def setField (fields : List (String × JVal)) (name : String) (v : JVal) :
    List (String × JVal) :=
  if (fields.find? (fun e => e.fst == name)).isSome then
    fields.map fun e => if e.fst == name then (e.fst, v) else e
  else fields ++ [(name, v)]

/-- json.erase(name). -/
def eraseField (fields : List (String × JVal)) (name : String) :
    List (String × JVal) :=
  fields.filter fun e => !(e.fst == name)

/-- an in-flight entry of Connection::Impl::responseHandlers: the stored
completion is identified by a tag, and the stored response TypeInfo is
represented by its deserializer (some deserialized data, or none when
deserialization fails). -/
structure RHandler (δ : Type) where
  tag : Nat
  responseDeserialize : JVal → Option δ

/-- one invocation of a stored completion handler: on success it receives the
deserialized body, on failure the error built from the message field. -/
inductive HandlerCall (δ : Type) where
  | success (tag : Nat) (data : δ)
  | failure (tag : Nat) (message : String)

/-- the outcome of Connection::Impl::processResponse: fatal models FAIL (which
aborts the process); processed carries the completion invocations and the
response-handler table as it stands afterwards. -/
inductive ProcOutcome (δ : Type) where
  | fatal (msg : String)
  | processed (calls : List (HandlerCall δ)) (table : List (Int × RHandler δ))

/-- Connection::Impl::processResponse: require an integer request_seq; look it
up in responseHandlers (FAIL when absent); require a boolean success.  On
success=true the body must be an object that deserializes into the stored
response type, and the completion gets the data; on success=false the
completion gets an error built from the (optional, string) message field.
The source never erases the entry from responseHandlers, so the table is
returned unchanged on every path. -/
def processResponse {δ : Type} (table : List (Int × RHandler δ)) (json : JVal) :
    ProcOutcome δ :=
  match jobjFind json "request_seq" with
  | some (JVal.jint requestSeq) =>
      match (table.find? (fun e => e.fst == requestSeq)).map Prod.snd with
      | none => ProcOutcome.fatal "Unknown response sequence"
      | some h =>
          match jobjFind json "success" with
          | some (JVal.jbool success) =>
              if success then
                match jobjFind json "body" with
                | some (JVal.jobj bodyFields) =>
                    match h.responseDeserialize (JVal.jobj bodyFields) with
                    | some data =>
                        ProcOutcome.processed [HandlerCall.success h.tag data] table
                    | none => ProcOutcome.fatal "Failed to deserialize request"
                | _ => ProcOutcome.fatal "Request body field is not an object"
              else
                let message :=
                  match jobjFind json "message" with
                  | some (JVal.jstr s) => s
                  | _ => ""
                ProcOutcome.processed [HandlerCall.failure h.tag message] table
          | _ => ProcOutcome.fatal "Response missing boolean success field"
  | _ => ProcOutcome.fatal "Response missing int request_seq field"

/-- JSONSerializer::field: a sub-serializer is created over json[name] (the
nlohmann operator[] default-inserts null for a missing key); the callback
runs on it; if the callback invoked remove(), the field is erased from the
enclosing object afterwards.  The callback is modelled by its effect: from
the initial slot value it produces the final slot value, the removed flag and
its boolean result. -/
def serializeField (fields : List (String × JVal)) (name : String)
    (cb : JVal → JVal × Bool × Bool) : List (String × JVal) × Bool :=
  let slot := (jfind fields name).getD JVal.jnull
  let r := cb slot
  let fields2 := setField fields name r.fst
  let fields3 := if r.snd.fst then eraseField fields2 name else fields2
  (fields3, r.snd.snd)

/-- the TypeOf<optional<T>> serialize lambda (typeof.h): without a value it
calls remove() on the serializer and succeeds; with a value it serializes the
value (serT is the JSON written by the element type's serializer). -/
def optionalSerializeCb {T : Type} (serT : T → JVal) (v : Option T) :
    JVal → JVal × Bool × Bool :=
  fun slot =>
    match v with
    | none => (slot, true, true)
    | some x => (serT x, false, true)

/-- JSONDeserializer::field: a missing field still invokes the callback, with
NullDeserializer — the deserializer that fails every read — modelled as none;
a present field invokes it with the field's value. -/
def deserializeField {α : Type} (fields : List (String × JVal)) (name : String)
    (cb : Option JVal → Bool × α) : Bool × α :=
  cb (jfind fields name)

/-- the TypeOf<optional<T>> deserialize lambda (typeof.h): the destination is
constructed absent; a successful element read assigns it; the lambda returns
true either way.  deserT is the element type's deserializer; a faithful
instantiation fails on the NullDeserializer, i.e. deserT none = none. -/
def optionalDeserializeCb {T : Type} (deserT : Option JVal → Option T) :
    Option JVal → Bool × Option T :=
  fun d => (true, deserT d)

/-
Connection::Impl framing (optional.h).  The parser state is the byte buffer,
modelled as the full remaining input (buffer(n) succeeds exactly when n bytes
remain, the socket being exhausted).
-/

/-- Connection::Impl::match(seq, len): require len buffered bytes; compare; a
full match consumes them, a mismatch leaves the buffer untouched. -/
def matchSeq (buf seq : List Char) : Bool × List Char :=
  if seq.length ≤ buf.length ∧ buf.take seq.length = seq then
    (true, buf.drop seq.length)
  else (false, buf)

/-- Connection::Impl::scan(seq, len): pop one front byte after every failed
match until a match succeeds or fewer than len bytes remain. -/
def scanSeq (seq : List Char) : List Char → Bool × List Char
  | [] => if seq.length ≤ 0 then (true, []) else (false, [])
  | c :: rest =>
      if seq.length ≤ (c :: rest).length then
        if (c :: rest).take seq.length = seq then
          (true, (c :: rest).drop seq.length)
        else scanSeq seq rest
      else (false, c :: rest)

/-- the while(matchAny(chars)) loop of parseMessage.  matchAny pops the front
byte when strchr(chars, c) finds it — which includes the terminating NUL, so
a NUL byte is consumed but reported as 0, ending the loop. -/
def skipWhile (chars : List Char) : List Char → List Char
  | [] => []
  | c :: rest =>
      if chars.contains c then skipWhile chars rest
      else if c = Char.ofNat 0 then rest
      else c :: rest

/-- the digit characters matchAny scans for the length. -/
def digitChars : List Char := "0123456789".toList

/-- the length-parsing loop of parseMessage: len = len * 10 + (c - Char 48)
for each matched digit; a NUL is consumed (strchr terminator) but ends the
loop, any other non-digit ends the loop unconsumed. -/
def parseLenLoop (acc : Nat) : List Char → Nat × List Char
  | [] => (acc, [])
  | c :: rest =>
      if digitChars.contains c then parseLenLoop (acc * 10 + (c.toNat - 48)) rest
      else if c = Char.ofNat 0 then (acc, rest)
      else (acc, c :: rest)

/-- the Content-Length header literal scanned for. -/
def contentLengthHeader : List Char := "Content-Length:".toList

/-- the header-terminating CRLFCRLF literal. -/
def crlfcrlf : List Char := "\r\n\r\n".toList

/-- Connection::Impl::parseMessage: scan for Content-Length:, skip spaces and
tabs, read the decimal length, require a nonzero length, match CRLFCRLF, then
hand exactly length bytes over as one message.  An empty string is the
source's no-message sentinel; the remaining buffer is returned alongside. -/
def parseMessage (buf : List Char) : String × List Char :=
  match scanSeq contentLengthHeader buf with
  | (false, rest) => ("", rest)
  | (true, b1) =>
      let b2 := skipWhile " \t".toList b1
      let r := parseLenLoop 0 b2
      let len := r.fst
      let b3 := r.snd
      if len = 0 then ("", b3)
      else
        match matchSeq b3 crlfcrlf with
        | (false, b4) => ("", b4)
        | (true, b4) =>
            if len ≤ b4.length then (String.mk (b4.take len), b4.drop len)
            else ("", b4)

end Dap

namespace VkDbg

/-
Concrete fixtures used by the theorems below.
-/

/-- an empty variable container with the given id. -/
def emptyVC (i : Nat) : VariableContainer := .mk i []

/-- a scope holding an empty container. -/
def emptyScope (i : Nat) : Scope := { id := i, file := none, vars := emptyVC i }

/-- a frame with the given id and empty scopes, as createFrame would produce. -/
def mkFrame (i : Nat) : Frame :=
  { id := i, function := "main", location := { line := 0, file := none },
    arguments := emptyScope (3 * i), locals := emptyScope (3 * i + 1),
    registers := emptyScope (3 * i + 2) }

/-- a paused thread with a two-frame stack; frame 2 is the top of stack. -/
def thrDepth2 : ThreadState :=
  { id := 1, frames := [mkFrame 1, mkFrame 2], state := TState.Paused, pauseAtFrame := none }

/-- a paused thread with a single stack frame. -/
def thrDepth1 : ThreadState :=
  { id := 1, frames := [mkFrame 1], state := TState.Paused, pauseAtFrame := none }

/-- a registered virtual file with no breakpoints. -/
def fMain : DFile :=
  { id := 1, name := "a.frag", dir := "", isVirtual := true, source := "", breakpoints := [] }

/-- C1: the claim says stepOut() sets pauseAtFrame to the frame immediately
below the top of stack (or null at depth 1).  The code instead computes
(size > 1) ? frames[size - 1] : nullptr, and frames[size-1] is the top of the
stack itself: on the stack [frame 1, frame 2] (2 on top) pauseAtFrame becomes
frame 2, not frame 1, giving stepOut the semantics of stepOver at any depth
above 1.  The depth-1 half of the claim (pauseAtFrame = null) does hold.
This theorem evaluates the embedded code at that failing input. -/
theorem stepOut_depth_two_sets_top_frame :
    thrDepth2.stepOut.pauseAtFrame = some 2 ∧
    thrDepth2.stepOut.pauseAtFrame ≠ some 1 ∧
    thrDepth2.stepOut.state = TState.Stepping ∧
    thrDepth1.stepOut.pauseAtFrame = none ∧
    thrDepth1.stepOut.state = TState.Stepping := by
  refine ⟨rfl, by decide, rfl, rfl, rfl⟩

/-- a paused worker thread with id 1. -/
def thrA : ThreadState :=
  { id := 1, frames := [mkFrame 1], state := TState.Paused, pauseAtFrame := none }

/-- a paused worker thread with id 2. -/
def thrB : ThreadState :=
  { id := 2, frames := [mkFrame 2], state := TState.Paused, pauseAtFrame := none }

/-- C3: the claim says a continue request with an unknown threadId resumes
every thread in the table and answers allThreadsContinued=true.  The code's
no-match loop calls resume() through the null shared_ptr left by the failed
lookup, so with the nonempty table [1, 2] and threadId 9 the handler
dereferences null (modelled as none) and resumes nothing.  The known-threadId
half of the claim does hold (only that thread is resumed,
allThreadsContinued=false), and with an empty table the loop body never runs
so the handler answers allThreadsContinued=true without crashing. -/
theorem continue_unknown_thread_null_deref :
    continueRequestHandler [(1, thrA), (2, thrB)] 9 = none ∧
    continueRequestHandler [(1, thrA), (2, thrB)] 1 =
      some ({ allThreadsContinued := false }, [(1, thrA.resume), (2, thrB)]) ∧
    thrA.resume.state = TState.Running ∧
    thrB.state = TState.Paused ∧
    continueRequestHandler [] 9 = some ({ allThreadsContinued := true }, []) := by
  refine ⟨rfl, rfl, rfl, rfl, rfl⟩

/-- a container with three variables a, b, c in insertion order. -/
def vcABC : VariableContainer :=
  .mk 7 [.mk "a" (.vS32 1), .mk "b" (.vS32 2), .mk "c" (.vS32 3)]

/-- C4: the claim says a variables request answers up to count entries from
the start index.  The handler's guard is written
req.count.value() < int(response.variables.size()) — count compared against
the entries emitted so far, which starts at 0 — so whenever a nonnegative
count is present no entry is ever emitted: on the container [a, b, c] with
count 2 the response is empty instead of [a, b].  With count absent the
handler does enumerate in insertion order from start, with name, type name,
value string and the container id as variablesReference. -/
theorem variables_count_guard_reversed :
    variablesRequestHandler [(7, vcABC)]
        { variablesReference := 7, start := none, count := some 2 } =
      Except.ok [] ∧
    variablesRequestHandler [(7, vcABC)]
        { variablesReference := 7, start := none, count := none } =
      Except.ok
        [{ name := "a", evaluateName := "a", type := "int32_t", value := "1",
           variablesReference := none },
         { name := "b", evaluateName := "b", type := "int32_t", value := "2",
           variablesReference := none },
         { name := "c", evaluateName := "c", type := "int32_t", value := "3",
           variablesReference := none }] ∧
    variablesRequestHandler [(7, vcABC)]
        { variablesReference := 7, start := some 1, count := none } =
      Except.ok
        [{ name := "b", evaluateName := "b", type := "int32_t", value := "2",
           variablesReference := none },
         { name := "c", evaluateName := "c", type := "int32_t", value := "3",
           variablesReference := none }] := by
  refine ⟨rfl, rfl, rfl⟩

/-- replacing the last element keeps the length of a nonempty list. -/
lemma dropLast_append_single_length {α : Type} (l : List α) (x : α) (h : l ≠ []) :
    (l.dropLast ++ [x]).length = l.length := by
  have hp : 0 < l.length := List.length_pos.mpr h
  simp only [List.length_append, List.length_dropLast, List.length_cons, List.length_nil]
  omega

/-- C10: Thread::update, Thread::exit and the registers/locals/arguments
accessors access frames.back() (or pop_back()) unconditionally; under the
precondition of a nonempty frame stack — and, for update, a non-null
location.file — every such access is in bounds, and no operation other than
enter (push one) and exit (pop one) changes the stack's length.  The empty
stack (and the null file for update) makes update and exit undefined,
witnessing that the precondition is real. -/
theorem thread_stack_access_safety :
    (∀ (t : ThreadState) (loc : Location) (f : DFile), t.frames ≠ [] → loc.file = some f →
        (t.update loc).map (fun r => r.fst.frames.length) = some t.frames.length) ∧
    (∀ (t : ThreadState) (loc : Location), t.frames = [] → t.update loc = none) ∧
    (∀ (t : ThreadState) (loc : Location), loc.file = none → t.update loc = none) ∧
    (∀ t : ThreadState, t.frames ≠ [] →
        t.exit.map (fun u => u.frames.length) = some (t.frames.length - 1) ∧
        t.registers.isSome = true ∧ t.locals.isSome = true ∧ t.arguments.isSome = true) ∧
    (∀ t : ThreadState, t.frames = [] → t.exit = none) ∧
    (∀ (t : ThreadState) (fr : Frame) (b : Bool),
        ((t.enter fr b).fst).frames.length = t.frames.length + 1) ∧
    (∀ t : ThreadState, t.stepIn.frames = t.frames ∧ t.stepOut.frames = t.frames ∧
        t.resume.frames = t.frames ∧ t.pause.frames = t.frames) ∧
    (∀ (t t2 : ThreadState), t.stepOver = some t2 → t2.frames = t.frames) := by
  refine ⟨?_, ?_, ?_, ?_, ?_, ?_, ?_, ?_⟩
  · intro t loc f hne hf
    obtain ⟨top, htop⟩ := Option.isSome_iff_exists.mp (List.getLast?_isSome.mpr hne)
    have hlen := dropLast_append_single_length t.frames { top with location := loc } hne
    simp only [ThreadState.update, htop, hf]
    split
    · simp_all
    · split <;> simp_all
    · simp_all
  · intro t loc hemp
    have : t.frames.getLast? = none := by simp [hemp]
    simp [ThreadState.update, this]
  · intro t loc hf
    cases htop : t.frames.getLast? <;> simp [ThreadState.update, htop, hf]
  · intro t hne
    refine ⟨?_, ?_, ?_, ?_⟩
    · cases hfr : t.frames with
      | nil => exact absurd hfr hne
      | cons a l =>
          simp [ThreadState.exit, hfr]
    · obtain ⟨top, htop⟩ := Option.isSome_iff_exists.mp (List.getLast?_isSome.mpr hne)
      simp [ThreadState.registers, htop]
    · obtain ⟨top, htop⟩ := Option.isSome_iff_exists.mp (List.getLast?_isSome.mpr hne)
      simp [ThreadState.locals, htop]
    · obtain ⟨top, htop⟩ := Option.isSome_iff_exists.mp (List.getLast?_isSome.mpr hne)
      simp [ThreadState.arguments, htop]
  · intro t hemp
    simp [ThreadState.exit, hemp]
  · intro t fr b
    cases b <;> simp [ThreadState.enter]
  · intro t
    exact ⟨rfl, rfl, rfl, rfl⟩
  · intro t t2 hstep
    cases htop : t.frames.getLast? with
    | none => simp [ThreadState.stepOver, htop] at hstep
    | some top =>
        rw [ThreadState.stepOver, htop] at hstep
        simp only [Option.map_some'] at hstep
        injection hstep with hstep
        rw [← hstep]

/-- witness for C10: the safety theorem applied to the concrete two-frame
thread and a concrete location, and to the empty-stack thread. -/
theorem thread_stack_access_safety_witness :
    ((thrDepth2.update { line := 3, file := some fMain }).map
        (fun r => r.fst.frames.length) = some 2) ∧
    thrDepth2.exit.map (fun u => u.frames.length) = some 1 ∧
    ({ id := 9, frames := [], state := TState.Running, pauseAtFrame := none } :
        ThreadState).update { line := 3, file := some fMain } = none := by
  refine ⟨?_, ?_, ?_⟩
  · have h := thread_stack_access_safety.1 thrDepth2 { line := 3, file := some fMain } fMain
      (by simp [thrDepth2]) rfl
    simpa [thrDepth2] using h
  · have h := (thread_stack_access_safety.2.2.2.1 thrDepth2 (by simp [thrDepth2])).1
    simpa [thrDepth2] using h
  · exact thread_stack_access_safety.2.1 _ _ rfl

/-- popping the top frame of a nonempty stack. -/
lemma exit_eq (t : ThreadState) (h : t.frames ≠ []) :
    t.exit = some { t with frames := t.frames.dropLast } := by
  cases hfr : t.frames with
  | nil => exact absurd hfr h
  | cons a l => simp [ThreadState.exit, hfr]

/-- C2: while a thread is Stepping, update() pauses it — firing
onThreadStepped and clearing pauseAtFrame — exactly when pauseAtFrame is null
or is the current top-of-stack frame, and otherwise leaves it Stepping with
no event; in particular after stepOver() records the then-top frame, an
update inside a deeper callee frame (pushed by enter) keeps the thread
Stepping with no stop event, and the update performed after the callee exits
— the recorded frame being top of stack again — pauses the thread with a
single step event. -/
theorem stepping_update_pause_characterization :
    (∀ (t : ThreadState) (loc : Location) (f : DFile) (top : Frame),
        t.state = TState.Stepping → loc.file = some f → t.frames.getLast? = some top →
        (t.pauseAtFrame = none ∨ t.pauseAtFrame = some top.id →
            (t.update loc).map (fun r => (r.fst.state, r.fst.pauseAtFrame, r.snd)) =
              some (TState.Paused, none, [DbgEvent.threadStepped t.id])) ∧
        (t.pauseAtFrame ≠ none → t.pauseAtFrame ≠ some top.id →
            (t.update loc).map (fun r => (r.fst.state, r.fst.pauseAtFrame, r.snd)) =
              some (TState.Stepping, t.pauseAtFrame, []))) ∧
    (∀ (t t1 : ThreadState) (top callee : Frame) (loc loc2 : Location) (f f2 : DFile),
        t.frames.getLast? = some top →
        t.stepOver = some t1 →
        callee.id ≠ top.id →
        loc.file = some f → loc2.file = some f2 →
        t1.pauseAtFrame = some top.id ∧
        (((t1.enter callee false).fst).update loc).map (fun r => (r.fst.state, r.snd)) =
            some (TState.Stepping, []) ∧
        ((((t1.enter callee false).fst).update loc).bind (fun r => r.fst.exit)).bind
            (fun t4 => (t4.update loc2).map (fun r => (r.fst.state, r.snd))) =
          some (TState.Paused, [DbgEvent.threadStepped t.id])) := by
  constructor
  · intro t loc f top hst hf htop
    constructor
    · intro hcond
      simp only [ThreadState.update, htop, hf, hst]
      rw [if_neg (by simp : ¬(TState.Stepping = TState.Running ∧ f.hasBreakpoint loc.line = true))]
      rw [if_neg (by simp : ¬(TState.Stepping = TState.Running ∧ f.hasBreakpoint loc.line = true))]
      rw [if_pos hcond]
      simp
    · intro h1 h2
      have hcond : ¬(t.pauseAtFrame = none ∨ t.pauseAtFrame = some top.id) := by
        rintro (h | h)
        · exact h1 h
        · exact h2 h
      simp only [ThreadState.update, htop, hf, hst]
      rw [if_neg (by simp : ¬(TState.Stepping = TState.Running ∧ f.hasBreakpoint loc.line = true))]
      rw [if_neg (by simp : ¬(TState.Stepping = TState.Running ∧ f.hasBreakpoint loc.line = true))]
      rw [if_neg hcond]
      simp
  · intro t t1 top callee loc loc2 f f2 htop hstep hne hf hf2
    rw [ThreadState.stepOver, htop] at hstep
    simp only [Option.map_some'] at hstep
    injection hstep with hstep
    subst hstep
    have hcond : ¬((some top.id : Option Nat) = none ∨
        (some top.id : Option Nat) = some callee.id) := by
      rintro (h | h)
      · exact Option.noConfusion h
      · exact hne (Option.some.inj h).symm
    refine ⟨rfl, ?_, ?_⟩
    · simp only [ThreadState.enter, if_neg (by simp : ¬(false = true))]
      simp only [ThreadState.update, List.getLast?_concat, hf]
      rw [if_neg (by simp : ¬(TState.Stepping = TState.Running ∧ f.hasBreakpoint loc.line = true))]
      rw [if_neg (by simp : ¬(TState.Stepping = TState.Running ∧ f.hasBreakpoint loc.line = true))]
      rw [if_neg hcond]
      simp
    · simp only [ThreadState.enter, if_neg (by simp : ¬(false = true))]
      simp only [ThreadState.update, List.getLast?_concat, hf]
      rw [if_neg (by simp : ¬(TState.Stepping = TState.Running ∧ f.hasBreakpoint loc.line = true))]
      rw [if_neg (by simp : ¬(TState.Stepping = TState.Running ∧ f.hasBreakpoint loc.line = true))]
      rw [if_neg hcond]
      simp only [Option.some_bind]
      rw [exit_eq _ (by simp)]
      simp only [Option.some_bind]
      rw [List.dropLast_concat]
      rw [List.dropLast_concat]
      simp only [htop, hf2]
      simp
  

/-- a location in the registered file, as a worker would report it. -/
def locA : Location := { line := 5, file := some fMain }

/-- a single-frame thread already in the Stepping state with a null
pauseAtFrame (the stepIn configuration). -/
def thrStepUpd : ThreadState :=
  { id := 1, frames := [mkFrame 1], state := TState.Stepping, pauseAtFrame := none }

/-- the thread thrA right after stepOver(): Stepping, pauseAtFrame = frame 1. -/
def thrStepOverT1 : ThreadState :=
  { id := 1, frames := [mkFrame 1], state := TState.Stepping,
    pauseAtFrame := some (mkFrame 1).id }

/-- witness for C2: the characterization applied to a concrete stepping
thread, and the stepOver scenario run on a concrete one-frame thread with a
concrete callee frame. -/
theorem stepping_update_pause_characterization_witness :
    ((thrStepUpd.update locA).map (fun r => (r.fst.state, r.fst.pauseAtFrame, r.snd)) =
        some (TState.Paused, none, [DbgEvent.threadStepped 1])) ∧
    (thrStepOverT1.pauseAtFrame = some (mkFrame 1).id ∧
      (((thrStepOverT1.enter (mkFrame 9) false).fst).update locA).map
          (fun r => (r.fst.state, r.snd)) = some (TState.Stepping, []) ∧
      ((((thrStepOverT1.enter (mkFrame 9) false).fst).update locA).bind
          (fun r => r.fst.exit)).bind
          (fun t4 => (t4.update locA).map (fun r => (r.fst.state, r.snd))) =
        some (TState.Paused, [DbgEvent.threadStepped thrA.id])) := by
  constructor
  · exact (stepping_update_pause_characterization.1 thrStepUpd locA fMain (mkFrame 1)
      rfl rfl rfl).1 (Or.inl rfl)
  · exact stepping_update_pause_characterization.2 thrA thrStepOverT1 (mkFrame 1)
      (mkFrame 9) locA locA fMain fMain rfl rfl (by decide) rfl rfl

/-- C5: an evaluate request with a frameId that resolves looks the expression
name up in the frame's locals, then arguments, then registers — so a name in
several scopes resolves to the locals entry — and a hit answers with the
variable's value string and type name; a name found in none of the scopes, or
a request carrying no frameId at all, fails with
"Could not evaluate expression".  (A frameId naming no live frame fails early
with its own "Unknown frame N" error, the semantic-not-found case the spec
lists separately.) -/
theorem evaluate_precedence (frames : List (Nat × Frame)) (fid : Nat) (fr : Frame)
    (expr : String)
    (hlookup : frames.find? (fun e => e.fst == fid) = some (fid, fr)) :
    (∀ var, fr.locals.vars.findVar expr = some var →
        evaluateRequestHandler frames (some fid) expr =
          Except.ok { result := valueString var.value, type := kindName var.value.kind }) ∧
    (∀ var, fr.locals.vars.findVar expr = none →
        fr.arguments.vars.findVar expr = some var →
        evaluateRequestHandler frames (some fid) expr =
          Except.ok { result := valueString var.value, type := kindName var.value.kind }) ∧
    (∀ var, fr.locals.vars.findVar expr = none →
        fr.arguments.vars.findVar expr = none →
        fr.registers.vars.findVar expr = some var →
        evaluateRequestHandler frames (some fid) expr =
          Except.ok { result := valueString var.value, type := kindName var.value.kind }) ∧
    (fr.locals.vars.findVar expr = none →
        fr.arguments.vars.findVar expr = none →
        fr.registers.vars.findVar expr = none →
        evaluateRequestHandler frames (some fid) expr =
          Except.error "Could not evaluate expression") ∧
    (evaluateRequestHandler frames none expr =
        Except.error "Could not evaluate expression") := by
  refine ⟨?_, ?_, ?_, ?_, rfl⟩
  · intro var hloc
    simp [evaluateRequestHandler, hlookup, hloc]
  · intro var hloc harg
    simp [evaluateRequestHandler, hlookup, hloc, harg]
  · intro var hloc harg hreg
    simp [evaluateRequestHandler, hlookup, hloc, harg, hreg]
  · intro hloc harg hreg
    simp [evaluateRequestHandler, hlookup, hloc, harg, hreg]

/-- the frame of the evaluate-precedence boundary scenario: locals x=1,
arguments x=2, registers x=3. -/
def frameEval : Frame :=
  { id := 4, function := "main", location := { line := 0, file := none },
    arguments := { id := 11, file := none, vars := .mk 11 [.mk "x" (.vS32 2)] },
    locals := { id := 12, file := none, vars := .mk 12 [.mk "x" (.vS32 1)] },
    registers := { id := 13, file := none, vars := .mk 13 [.mk "x" (.vS32 3)] } }

/-- witness for C5: on the scenario frame, evaluate("x") answers "1" — the
locals entry wins — and a missing name or missing frameId fails with
"Could not evaluate expression". -/
theorem evaluate_precedence_witness :
    evaluateRequestHandler [(4, frameEval)] (some 4) "x" =
      Except.ok { result := "1", type := "int32_t" } ∧
    evaluateRequestHandler [(4, frameEval)] (some 4) "y" =
      Except.error "Could not evaluate expression" ∧
    evaluateRequestHandler [(4, frameEval)] none "x" =
      Except.error "Could not evaluate expression" := by
  refine ⟨?_, ?_, ?_⟩
  · exact (evaluate_precedence [(4, frameEval)] 4 frameEval "x" rfl).1
      (Variable.mk "x" (.vS32 1)) rfl
  · exact (evaluate_precedence [(4, frameEval)] 4 frameEval "y" rfl).2.2.2.1 rfl rfl rfl
  · exact (evaluate_precedence [(4, frameEval)] 4 frameEval "x" rfl).2.2.2.2

/-- a find? over an appended list skips a prefix in which nothing matches. -/
lemma find?_append_of_none {α : Type} (p : α → Bool) (l1 l2 : List α)
    (h : l1.find? p = none) : (l1 ++ l2).find? p = l2.find? p := by
  induction l1 with
  | nil => simp
  | cons a l ih =>
      cases hpa : p a with
      | true => rw [List.find?_cons_of_pos _ hpa] at h; exact absurd h (by simp)
      | false =>
          rw [List.find?_cons_of_neg _ (by simp [hpa])] at h
          rw [List.cons_append, List.find?_cons_of_neg _ (by simp [hpa])]
          exact ih h

/-- membership in the breakpoint set after installing a list of lines. -/
lemma foldl_addBreakpoint_mem (lines : List Int) (f : DFile) (l : Int) :
    (l ∈ (lines.foldl DFile.addBreakpoint f).breakpoints) ↔
      (l ∈ f.breakpoints ∨ l ∈ lines) := by
  induction lines generalizing f with
  | nil => simp
  | cons a rest ih =>
      rw [List.foldl_cons, ih]
      unfold DFile.addBreakpoint
      by_cases hc : f.breakpoints.contains a
      · rw [if_pos hc]
        have ha : a ∈ f.breakpoints := by simpa using hc
        simp only [List.mem_cons]
        constructor
        · rintro (h | h)
          · exact Or.inl h
          · exact Or.inr (Or.inr h)
        · rintro (h | h | h)
          · exact Or.inl h
          · exact Or.inl (h ▸ ha)
          · exact Or.inr h
      · rw [if_neg hc]
        simp only [List.mem_append, List.mem_cons, List.mem_singleton]
        tauto

/-- hasBreakpoint after installing a list of lines. -/
lemma foldl_addBreakpoint_hasBreakpoint (lines : List Int) (f : DFile) (l : Int) :
    (lines.foldl DFile.addBreakpoint f).hasBreakpoint l =
      (f.hasBreakpoint l || lines.contains l) := by
  simp [DFile.hasBreakpoint, foldl_addBreakpoint_mem]

/-- C6 (amended): a setBreakpoints request naming a source that is not yet
registered stores its requested lines as pending breakpoints keyed by the
source name — provided no pending entry for that name exists yet, since the
map emplace leaves an existing entry untouched — and a later createVirtualFile
whose name matches installs exactly the stored pending lines on the new file.
-/
theorem pending_breakpoints_installed
    (fs : FilesState) (n : String) (lines : List Int) (src : DapSource) (source2 : String)
    (hname : src.name = some n)
    (hnopending : fs.pendingBreakpoints.find? (fun e => e.fst == n) = none)
    (hnoresolve : resolveSource fs src = none) :
    (((setBreakpointsHandler fs { source := src, breakpoints := some lines
        }).fst.pendingBreakpoints.find? (fun e => e.fst == n)).map Prod.snd = some lines) ∧
    (∀ l : Int,
        (((setBreakpointsHandler fs { source := src, breakpoints := some lines
            }).fst.createVirtualFile false n source2).snd).hasBreakpoint l =
          lines.contains l) := by
  have hpend2 : (setBreakpointsHandler fs
      { source := src, breakpoints := some lines }).fst.pendingBreakpoints =
      fs.pendingBreakpoints ++ [(n, lines)] := by
    simp [setBreakpointsHandler, hnoresolve, hname, FilesState.setPendingBreakpoints,
      hnopending]
  have hfind : ((fs.pendingBreakpoints ++ [(n, lines)]).find? (fun e => e.fst == n)) =
      some (n, lines) := by
    rw [find?_append_of_none _ _ _ hnopending]
    exact List.find?_cons_of_pos _ (by simp)
  constructor
  · rw [hpend2, hfind]
    rfl
  · intro l
    simp only [FilesState.createVirtualFile, FilesState.add, sanitizeName, if_neg
      (by simp : ¬(false = true)), hpend2, hfind]
    rw [foldl_addBreakpoint_hasBreakpoint]
    simp [DFile.hasBreakpoint]

/-- the source of the boundary scenario: only a name, "a.frag". -/
def srcA : DapSource := { name := some "a.frag", path := none, sourceReference := none }

/-- an empty Files registry. -/
def fs0 : FilesState := { nextId := 1, byId := [], pendingBreakpoints := [] }

/-- witness for C6: the boundary scenario — pending lines 10 and 20 for
"a.frag", then createVirtualFile("a.frag") — gives a file with breakpoints at
10 and 20 but not 15. -/
theorem pending_breakpoints_installed_witness :
    ((((setBreakpointsHandler fs0 { source := srcA, breakpoints := some [10, 20]
        }).fst.createVirtualFile false "a.frag" "void main()").snd).hasBreakpoint 10
      = true) ∧
    ((((setBreakpointsHandler fs0 { source := srcA, breakpoints := some [10, 20]
        }).fst.createVirtualFile false "a.frag" "void main()").snd).hasBreakpoint 20
      = true) ∧
    ((((setBreakpointsHandler fs0 { source := srcA, breakpoints := some [10, 20]
        }).fst.createVirtualFile false "a.frag" "void main()").snd).hasBreakpoint 15
      = false) := by
  have h := (pending_breakpoints_installed fs0 "a.frag" [10, 20] srcA "void main()"
    rfl rfl rfl).2
  exact ⟨(h 10).trans (by decide), (h 20).trans (by decide), (h 15).trans (by decide)⟩

/-- C6 (counterexample to the claim as stated): a second setBreakpoints for a
source that is still unregistered is dropped — pendingBreakpoints.emplace does
not overwrite — so after setBreakpoints("a.frag", [10]) and then
setBreakpoints("a.frag", [20]), the file created for "a.frag" has no
breakpoint at line 20, though the claim promises the second request's lines
are stored and installed. -/
theorem pending_breakpoints_emplace_drop :
    ((((setBreakpointsHandler
          (setBreakpointsHandler fs0 { source := srcA, breakpoints := some [10] }).fst
          { source := srcA, breakpoints := some [20] }).fst.createVirtualFile
        false "a.frag" "void main()").snd).hasBreakpoint 20 = false) ∧
    ((((setBreakpointsHandler
          (setBreakpointsHandler fs0 { source := srcA, breakpoints := some [10] }).fst
          { source := srcA, breakpoints := some [20] }).fst.createVirtualFile
        false "a.frag" "void main()").snd).hasBreakpoint 10 = true) := by
  exact ⟨rfl, rfl⟩

end VkDbg

namespace Dap
/-- C7 (amended): an inbound response whose request_seq has an in-flight entry
invokes that entry's completion handler exactly once — with the deserialized
body when success=true and the body is an object the stored response type
deserializes, or with an error built from the message field when
success=false — but the entry is NOT removed: the response-handler table is
returned unchanged on every path (the source has no erase). -/
theorem processResponse_invokes_handler_once {δ : Type}
    (table : List (Int × RHandler δ)) (S : Int) (h : RHandler δ)
    (hfind : (table.find? (fun e => e.fst == S)).map Prod.snd = some h) :
    (∀ (bodyFields : List (String × JVal)) (data : δ),
        h.responseDeserialize (JVal.jobj bodyFields) = some data →
        processResponse table
            (JVal.jobj [("request_seq", JVal.jint S), ("success", JVal.jbool true),
              ("body", JVal.jobj bodyFields)]) =
          ProcOutcome.processed [HandlerCall.success h.tag data] table) ∧
    (∀ m : String,
        processResponse table
            (JVal.jobj [("request_seq", JVal.jint S), ("success", JVal.jbool false),
              ("message", JVal.jstr m)]) =
          ProcOutcome.processed [HandlerCall.failure h.tag m] table) := by
  constructor
  · intro bodyFields data hdeser
    have h1 : jobjFind (JVal.jobj [("request_seq", JVal.jint S),
        ("success", JVal.jbool true), ("body", JVal.jobj bodyFields)]) "request_seq" =
        some (JVal.jint S) := rfl
    have h2 : jobjFind (JVal.jobj [("request_seq", JVal.jint S),
        ("success", JVal.jbool true), ("body", JVal.jobj bodyFields)]) "success" =
        some (JVal.jbool true) := rfl
    have h3 : jobjFind (JVal.jobj [("request_seq", JVal.jint S),
        ("success", JVal.jbool true), ("body", JVal.jobj bodyFields)]) "body" =
        some (JVal.jobj bodyFields) := rfl
    simp only [processResponse, h1, h2, h3, hfind, hdeser, if_pos]
  · intro m
    have h1 : jobjFind (JVal.jobj [("request_seq", JVal.jint S),
        ("success", JVal.jbool false), ("message", JVal.jstr m)]) "request_seq" =
        some (JVal.jint S) := rfl
    have h2 : jobjFind (JVal.jobj [("request_seq", JVal.jint S),
        ("success", JVal.jbool false), ("message", JVal.jstr m)]) "success" =
        some (JVal.jbool false) := rfl
    have h4 : jobjFind (JVal.jobj [("request_seq", JVal.jint S),
        ("success", JVal.jbool false), ("message", JVal.jstr m)]) "message" =
        some (JVal.jstr m) := rfl
    simp only [processResponse, h1, h2, h4, hfind]
    simp

/-- a concrete in-flight entry: tag 3, a deserializer accepting any object. -/
def rh5 : RHandler Nat := { tag := 3, responseDeserialize := fun _ => some 0 }

/-- C7 (counterexample to the claim as stated): processing a response for the
in-flight entry 5 invokes its completion handler, but the entry is still in
the table afterwards — it is never removed, though the claim says it is
removed exactly once. -/
theorem processResponse_entry_not_removed :
    processResponse [(5, rh5)]
        (JVal.jobj [("request_seq", JVal.jint 5), ("success", JVal.jbool false),
          ("message", JVal.jstr "oops")]) =
      ProcOutcome.processed [HandlerCall.failure 3 "oops"] [(5, rh5)] := rfl

/-- witness for C7: the amended theorem applied to a concrete one-entry table
and a concrete successful response. -/
theorem processResponse_invokes_handler_once_witness :
    processResponse [(5, rh5)]
        (JVal.jobj [("request_seq", JVal.jint 5), ("success", JVal.jbool true),
          ("body", JVal.jobj [])]) =
      ProcOutcome.processed [HandlerCall.success 3 0] [(5, rh5)] :=
  (processResponse_invokes_handler_once [(5, rh5)] 5 rh5 rfl).1 [] 0 rfl

end Dap

namespace Dap
/-- after erasing a field the lookup misses. -/
lemma jfind_eraseField (fs : List (String × JVal)) (name : String) :
    jfind (eraseField fs name) name = none := by
  simp only [jfind, eraseField]
  rw [List.find?_eq_none.mpr]
  · rfl
  · intro x hx
    have hmem := List.mem_filter.mp hx
    simpa using hmem.2

/-- C8: serializing an optional field with no value erases that field from
the enclosing JSON object — the field is absent, not null — and the write
succeeds; reading an object missing the field still succeeds (the callback
runs on the uniformly failing NullDeserializer) and leaves the optional
absent; hence serialize-then-deserialize of a value-less optional field
preserves absence.  deserT is the element type's deserializer, which fails on
the NullDeserializer. -/
theorem optional_absent_field_roundtrip {T : Type}
    (serT : T → JVal) (deserT : Option JVal → Option T)
    (hnull : deserT none = none)
    (fields : List (String × JVal)) (name : String) :
    (serializeField fields name (optionalSerializeCb serT none)).snd = true ∧
    jfind (serializeField fields name (optionalSerializeCb serT none)).fst name = none ∧
    deserializeField (serializeField fields name (optionalSerializeCb serT none)).fst name
        (optionalDeserializeCb deserT) = (true, (none : Option T)) := by
  refine ⟨rfl, ?_, ?_⟩
  · simp only [serializeField, optionalSerializeCb]
    exact jfind_eraseField _ name
  · simp only [deserializeField, optionalDeserializeCb]
    rw [show jfind (serializeField fields name (optionalSerializeCb serT none)).fst name
        = none from by
      simp only [serializeField, optionalSerializeCb]
      exact jfind_eraseField _ name]
    rw [hnull]

/-- an integer element serializer and deserializer, as TypeOf<integer> gives
rise to at the JSON level. -/
def serInt : Int → JVal := JVal.jint

/-- the integer read: succeeds only on an integer JSON value; fails on the
NullDeserializer (none). -/
def deserInt : Option JVal → Option Int
  | some (JVal.jint n) => some n
  | _ => none

/-- witness for C8: the round-trip theorem applied at T = Int to a concrete
enclosing object that even starts with a stale value under the key: the
serializer erases it, and the read yields the absent optional. -/
theorem optional_absent_field_roundtrip_witness :
    (serializeField [("x", JVal.jint 9)] "x" (optionalSerializeCb serInt none)).snd
      = true ∧
    jfind (serializeField [("x", JVal.jint 9)] "x"
        (optionalSerializeCb serInt none)).fst "x" = none ∧
    deserializeField (serializeField [("x", JVal.jint 9)] "x"
        (optionalSerializeCb serInt none)).fst "x" (optionalDeserializeCb deserInt) =
      (true, (none : Option Int)) :=
  optional_absent_field_roundtrip serInt deserInt rfl [("x", JVal.jint 9)] "x"

end Dap

namespace Dap
/-- the decimal value of a digit string, as the parser's length loop folds it. -/
def digitsVal (ds : List Char) : Nat :=
  ds.foldl (fun a c => a * 10 + (c.toNat - 48)) 0

/-- scan succeeds immediately when the needle is the buffer's prefix,
consuming exactly the needle. -/
lemma scanSeq_prefix (seq s : List Char) : scanSeq seq (seq ++ s) = (true, s) := by
  cases seq with
  | nil =>
      cases s with
      | nil => rfl
      | cons c rest => simp [scanSeq]
  | cons a seq2 =>
      have hle : (a :: seq2).length ≤ ((a :: seq2) ++ s).length := by simp
      have htake : ((a :: seq2) ++ s).take (a :: seq2).length = a :: seq2 :=
        List.take_left _ _
      have hdrop : ((a :: seq2) ++ s).drop (a :: seq2).length = s :=
        List.drop_left _ _
      rw [List.cons_append]
      rw [scanSeq]
      rw [← List.cons_append]
      rw [if_pos hle, if_pos htake, hdrop]

/-- scan discards any leading bytes at which the needle does not occur and
stops right after the first occurrence. -/
lemma scanSeq_resync (seq g s : List Char)
    (h : ∀ p, p < g.length → ((g ++ (seq ++ s)).drop p).take seq.length ≠ seq) :
    scanSeq seq (g ++ (seq ++ s)) = (true, s) := by
  induction g with
  | nil => simpa using scanSeq_prefix seq s
  | cons a g2 ih =>
      have h0 : ¬((a :: (g2 ++ (seq ++ s))).take seq.length = seq) := by
        have := h 0 (by simp)
        simpa using this
      have hle : seq.length ≤ (a :: (g2 ++ (seq ++ s))).length := by
        simp only [List.length_cons, List.length_append]
        omega
      rw [List.cons_append]
      rw [scanSeq]
      rw [if_pos hle, if_neg h0]
      refine ih ?_
      intro p hp
      have := h (p + 1) (by simpa using Nat.succ_lt_succ hp)
      simpa using this

/-- the whitespace loop consumes exactly a run of matching characters when
the next byte matches neither the set nor NUL. -/
lemma skipWhile_append (chars ws s : List Char)
    (hws : ∀ c ∈ ws, chars.contains c = true)
    (hs : ∀ c ∈ s.head?, chars.contains c = false ∧ c ≠ Char.ofNat 0) :
    skipWhile chars (ws ++ s) = s := by
  induction ws with
  | nil =>
      cases s with
      | nil => rfl
      | cons c rest =>
          have hc := hs c (by simp)
          show (if chars.contains c = true then skipWhile chars rest
            else if c = Char.ofNat 0 then rest else c :: rest) = c :: rest
          rw [if_neg (by simpa using hc.1), if_neg hc.2]
  | cons a ws2 ih =>
      have ha := hws a (by simp)
      simp only [List.cons_append, skipWhile, ha, if_pos]
      exact ih (fun c hc => hws c (by simp [hc]))

/-- the length loop folds exactly a run of digits when the next byte is
neither a digit nor NUL. -/
lemma parseLenLoop_append (ds s : List Char) (acc : Nat)
    (hds : ∀ c ∈ ds, digitChars.contains c = true)
    (hs : ∀ c ∈ s.head?, digitChars.contains c = false ∧ c ≠ Char.ofNat 0) :
    parseLenLoop acc (ds ++ s) =
      (ds.foldl (fun a c => a * 10 + (c.toNat - 48)) acc, s) := by
  induction ds generalizing acc with
  | nil =>
      cases s with
      | nil => rfl
      | cons c rest =>
          have hc := hs c (by simp)
          show (if digitChars.contains c = true
              then parseLenLoop (acc * 10 + (c.toNat - 48)) rest
              else if c = Char.ofNat 0 then (acc, rest) else (acc, c :: rest)) =
            (acc, c :: rest)
          rw [if_neg (by simpa using hc.1), if_neg hc.2]
  | cons d ds2 ih =>
      have hd := hds d (by simp)
      simp only [List.cons_append, parseLenLoop, hd, if_pos]
      rw [List.foldl_cons]
      exact ih _ (fun c hc => hds c (by simp [hc]))

/-- a digit character is not a space, a tab or NUL, and is scanned as a
digit. -/
lemma digit_head_facts (c : Char) (hc : c ∈ digitChars) :
    (" \t".toList.contains c = false ∧ c ≠ Char.ofNat 0) ∧
      digitChars.contains c = true := by
  have hd : digitChars = ['0', '1', '2', '3', '4', '5', '6', '7', '8', '9'] := rfl
  rw [hd] at hc
  simp only [List.mem_cons, List.not_mem_nil, or_false] at hc
  rcases hc with h | h | h | h | h | h | h | h | h | h <;> subst h <;> exact ⟨by decide, by decide⟩

/-- C9: the framing parser discards all bytes preceding Content-Length:,
accepts optional spaces and tabs, ASCII digits forming the integer N, the
literal CRLFCRLF, and hands exactly the next N bytes over as one message,
leaving the rest buffered — for any leading garbage in which the header does
not occur earlier, any space/tab run, any digit string of value N > 0 and any
N-byte body. -/
theorem framing_parser_resync (garbage ws ds body rest : List Char)
    (hg : ∀ p, p < garbage.length →
        ((garbage ++ (contentLengthHeader ++ (ws ++ (ds ++ (crlfcrlf ++ (body ++ rest)))))).drop p).take
            contentLengthHeader.length ≠ contentLengthHeader)
    (hws : ∀ c ∈ ws, c = ' ' ∨ c = '\t')
    (hds : ∀ c ∈ ds, c ∈ digitChars)
    (hN : 0 < digitsVal ds)
    (hbody : body.length = digitsVal ds) :
    parseMessage (garbage ++ (contentLengthHeader ++ (ws ++ (ds ++ (crlfcrlf ++ (body ++ rest)))))) =
      (String.mk body, rest) := by
  have hdsne : ds ≠ [] := by
    intro hnil
    rw [hnil] at hN
    exact absurd hN (by decide)
  obtain ⟨d, ds2, hds12⟩ := List.exists_cons_of_ne_nil hdsne
  have hscan := scanSeq_resync contentLengthHeader garbage
    (ws ++ (ds ++ (crlfcrlf ++ (body ++ rest)))) hg
  have hskip : skipWhile " \t".toList (ws ++ (ds ++ (crlfcrlf ++ (body ++ rest)))) =
      ds ++ (crlfcrlf ++ (body ++ rest)) := by
    refine skipWhile_append _ _ _ ?_ ?_
    · intro c hc
      rcases hws c hc with h | h <;> subst h <;> decide
    · intro c hc
      rw [hds12] at hc
      simp only [List.cons_append, List.head?_cons] at hc
      have hcd : c ∈ digitChars := by
        have : c = d := by simpa using hc.symm
        subst this
        exact hds _ (by rw [hds12]; simp)
      exact (digit_head_facts c hcd).1
  have hlen : parseLenLoop 0 (ds ++ (crlfcrlf ++ (body ++ rest))) =
      (digitsVal ds, crlfcrlf ++ (body ++ rest)) := by
    refine parseLenLoop_append _ _ _ ?_ ?_
    · intro c hc
      exact (digit_head_facts c (hds c hc)).2
    · intro c hc
      have : c = '\r' := by
        have hr : (crlfcrlf ++ (body ++ rest)).head? = some '\r' := rfl
        rw [hr] at hc
        simpa using hc.symm
      subst this
      exact ⟨by decide, by decide⟩
  have hmatch : matchSeq (crlfcrlf ++ (body ++ rest)) crlfcrlf = (true, body ++ rest) := by
    rw [matchSeq]
    rw [if_pos ⟨by simp, List.take_left _ _⟩]
    rw [List.drop_left]
  simp only [parseMessage, hscan, hskip, hlen, hmatch]
  rw [if_neg (by omega : ¬(digitsVal ds = 0))]
  rw [if_pos (by simp [hbody] : digitsVal ds ≤ (body ++ rest).length)]
  rw [← hbody]
  rw [List.take_left, List.drop_left]

/-- witness for C9: the spec's resync boundary input — garbage bytes, then a
well-formed Content-Length frame of two bytes — yields exactly the two-byte
message, with nothing left over. -/
theorem framing_parser_resync_witness :
    parseMessage ("garbage\r\nContent-Length: 2\r\n\r\n\x7b\x7d".toList) =
      ("\x7b\x7d", []) := by
  have h := framing_parser_resync "garbage\r\n".toList " ".toList "2".toList
    "\x7b\x7d".toList [] (by decide) (by decide) (by decide) (by decide) (by decide)
  have he : ("garbage\r\nContent-Length: 2\r\n\r\n\x7b\x7d".toList) =
      ("garbage\r\n".toList ++ (contentLengthHeader ++ (" ".toList ++ ("2".toList ++
        (crlfcrlf ++ ("\x7b\x7d".toList ++ ([] : List Char))))))) := by decide
  rw [he, h]
  rfl

end Dap
